import Mathlib

/-!
Verification of `ocspchecker` (src/main.go) against its specification.

Bytes are modelled as natural numbers; every byte produced by a DER encoder
is `< 256`, and the bit-field extractions below (`b / 64`, `b / 32 % 2`,
`b % 32`, `b / 128 % 2`, `b % 128`, `b % 256`) agree with Go's shift/mask
operations on bytes.  Fallible Go functions returning `(value, error)` are
modelled with `Option`/`Except`; Go runtime panics (index out of range) are
modelled as `none`/dedicated constructors, explicitly distinct from reported
errors.
-/

/-- Result of Go `asn1.parseTagAndLength`: identifier octet fields and the
content length. -/
structure TagLength where
  cls : Nat
  isCompound : Bool
  tag : Nat
  len : Nat
deriving DecidableEq, Repr

/-- Go `asn1.RawValue` (the fields used by `decodeAIA`): class, tag,
constructed bit and the content octets. -/
structure RawValue where
  cls : Nat
  tag : Nat
  isCompound : Bool
  bytes : List Nat
deriving DecidableEq, Repr

/-- Go `asn1.parseBase128Int`: big-endian base-128 integer, 7 bits per byte,
high bit marks continuation.  `shifted` counts bytes consumed in the current
group; Go errors after 5 continuation bytes, on a leading 0x80 octet
(non-minimal encoding), on truncation, and on values above `MaxInt32`. -/
def parseBase128Core : Nat → Nat → List Nat → Option (Nat × List Nat)
  | _, _, [] => none
  | shifted, acc, b :: bs =>
    if shifted = 5 then none
    else if shifted = 0 ∧ b = 128 then none
    else
      let acc2 := acc * 128 + b % 128
      if b / 128 % 2 = 0 then
        if 2 ^ 31 ≤ acc2 then none else some (acc2, bs)
      else parseBase128Core (shifted + 1) acc2 bs

/-- The long-form length loop of Go `asn1.parseTagAndLength`: `numBytes`
base-256 digits; Go rejects lengths ≥ 2^23 before each shift, superfluous
leading zero digits, truncation, and (after the loop) long-form encodings of
lengths below 0x80 (non-minimal DER). -/
def parseLongLen : Nat → Nat → List Nat → Option (Nat × List Nat)
  | 0, acc, bs => if acc < 128 then none else some (acc, bs)
  | _ + 1, _, [] => none
  | n + 1, acc, b :: bs =>
    if 2 ^ 23 ≤ acc then none
    else
      let acc2 := acc * 256 + b % 256
      if acc2 = 0 then none
      else parseLongLen n acc2 bs

/-- Go `asn1.parseTagAndLength`: reads the identifier octet (class = top two
bits, constructed = bit 5, tag = low five bits, with the 0x1f multi-byte tag
form), then a short-form or long-form definite length. -/
def parseTagAndLength : List Nat → Option (TagLength × List Nat)
  | [] => none
  | b :: bs =>
    let tagRes : Option (Nat × List Nat) :=
      if b % 32 = 31 then
        match parseBase128Core 0 0 bs with
        | none => none
        | some (t, r) => if t < 31 then none else some (t, r)
      else some (b % 32, bs)
    match tagRes with
    | none => none
    | some (tag, r1) =>
      match r1 with
      | [] => none
      | l :: r2 =>
        if l / 128 % 2 = 0 then
          some (⟨b / 64, b / 32 % 2 == 1, tag, l % 128⟩, r2)
        else
          let numBytes := l % 128
          if numBytes = 0 then none
          else
            match parseLongLen numBytes 0 r2 with
            | none => none
            | some (len, r3) => some (⟨b / 64, b / 32 % 2 == 1, tag, len⟩, r3)

/-- Go `asn1.Unmarshal` into an `asn1.RawValue`: parse tag and length, check
the content is not truncated, return the raw value and the remaining bytes.
`none` stands for any `asn1.Unmarshal` error. -/
def unmarshalRaw (input : List Nat) : Option (RawValue × List Nat) :=
  match parseTagAndLength input with
  | none => none
  | some (t, r) =>
    if t.len ≤ r.length then
      some (⟨t.cls, t.tag, t.isCompound, r.take t.len⟩, r.drop t.len)
    else none

/-- First two OID components from the first base-128 group, as in Go
`asn1.parseObjectIdentifier`. -/
def oidArcsFrom (v : Nat) : List Nat :=
  if v < 80 then [v / 40, v % 40] else [2, v - 80]

/-- The arc loop of Go `asn1.parseObjectIdentifier`: repeated base-128 groups
until the content octets are exhausted, with the same per-group checks as
`parseBase128Core`. -/
def parseOIDLoop : List Nat → Nat → Nat → Bool → List Nat → Option (List Nat)
  | [], 0, _, _, arcs => some arcs
  | [], _ + 1, _, _, _ => none
  | b :: bs, shifted, acc, isFirst, arcs =>
    if shifted = 5 then none
    else if shifted = 0 ∧ b = 128 then none
    else
      let acc2 := acc * 128 + b % 128
      if b / 128 % 2 = 0 then
        if 2 ^ 31 ≤ acc2 then none
        else if isFirst then parseOIDLoop bs 0 0 false (oidArcsFrom acc2)
        else parseOIDLoop bs 0 0 false (arcs ++ [acc2])
      else parseOIDLoop bs (shifted + 1) acc2 isFirst arcs

/-- Go `asn1.parseObjectIdentifier` on the content octets: empty content is a
syntax error, otherwise parse the base-128 arc groups. -/
def parseOIDContent (content : List Nat) : Option (List Nat) :=
  match content with
  | [] => none
  | _ :: _ => parseOIDLoop content 0 0 true []

/-- Go `asn1.Unmarshal` into an `asn1.ObjectIdentifier`: the element must be
a primitive universal OBJECT IDENTIFIER (class 0, tag 6); its content is
parsed by `parseOIDContent`; the bytes after the element are returned. -/
def unmarshalOID (input : List Nat) : Option (List Nat × List Nat) :=
  match parseTagAndLength input with
  | none => none
  | some (t, r) =>
    if t.cls = 0 ∧ t.tag = 6 ∧ t.isCompound = false then
      if t.len ≤ r.length then
        match parseOIDContent (r.take t.len) with
        | none => none
        | some oid => some (oid, r.drop t.len)
      else none
    else none

/-- The distinct error returns of `decodeAIA` (src/main.go lines 42-95). -/
inductive DecodeErr where
  /-- `fmt.Errorf("Error unmarshaling %s", err)` -/
  | unmarshal
  /-- `"x509: trailing data after X.509 extension"` -/
  | trailingExtension
  /-- `asn1.StructuralError{Msg: "bad SAN sequence"}` -/
  | badSeq
  /-- `"x509: trailing data after AIA extension"` -/
  | trailingAIA
  /-- `"Unknown type for AIA Issuer extension: %+v"` -/
  | unknownType
deriving DecidableEq, Repr

deriving instance DecidableEq for Except

/-- OID 1.3.6.1.5.5.7.48.2 (`aiaIssuer` in src/main.go). -/
def aiaIssuer : List Nat := [1, 3, 6, 1, 5, 5, 7, 48, 2]

/-- OID 1.3.6.1.5.5.7.1.1 (`authorityInfoAccess` in src/main.go). -/
def authorityInfoAccess : List Nat := [1, 3, 6, 1, 5, 5, 7, 1, 1]

/-- Outcome of parsing one AccessDescription (the body of the `decodeAIA`
loop, src/main.go lines 58-80, before the access-method comparison). -/
inductive StepOut where
  /-- a parse failed; the loop returns this error -/
  | fail (e : DecodeErr)
  /-- a well-formed AccessDescription: access-method OID, access location,
  and the bytes remaining after this child -/
  | desc (oid : List Nat) (loc : RawValue) (rest2 : List Nat)
deriving DecidableEq, Repr

/-- One iteration of the `decodeAIA` scan, up to the access-method check:
unmarshal the child, require a constructed universal SEQUENCE, unmarshal the
method OID, unmarshal the access location, and reject trailing bytes inside
the AccessDescription (src/main.go lines 58-80). -/
def parseDescStep (body : List Nat) : StepOut :=
  match unmarshalRaw body with
  | none => .fail .unmarshal
  | some (inside, rest2) =>
    if inside.isCompound = true ∧ inside.tag = 16 ∧ inside.cls = 0 then
      match unmarshalOID inside.bytes with
      | none => .fail .unmarshal
      | some (oid, body2) =>
        match unmarshalRaw body2 with
        | none => .fail .unmarshal
        | some (extData, rest3) =>
          if rest3 = [] then .desc oid extData rest2
          else .fail .trailingAIA
    else .fail .badSeq

/-- Fuelled form of the `for len(rest) > 0` loop of `decodeAIA`
(src/main.go lines 57-91): parse a child, and on a CA-Issuers method return
the location (tag 6) or an unknown-type error; otherwise continue.  Each
iteration strictly consumes input, so fuel `rest.length` always suffices
(`decodeAIALoopF_congr`); the fuel-exhausted branch is unreachable. -/
def decodeAIALoopF : Nat → List Nat → Except DecodeErr (List Nat)
  | _, [] => .ok []
  | 0, _ :: _ => .error .unmarshal
  | fuel + 1, b :: bs =>
    match parseDescStep (b :: bs) with
    | .fail e => .error e
    | .desc oid loc rest2 =>
      if oid = aiaIssuer then
        if loc.tag = 6 then .ok loc.bytes
        else .error .unknownType
      else decodeAIALoopF fuel rest2

/-- The `decodeAIA` scan loop over the outer sequence's content octets. -/
def decodeAIALoop (body : List Nat) : Except DecodeErr (List Nat) :=
  decodeAIALoopF body.length body

/-- `decodeAIA` (src/main.go lines 42-95).  The returned URL is the raw
content octets of the location (Go returns `string(extensionData.Bytes)`);
`Except.ok []` is Go's `("", nil)`. -/
def decodeAIA (ext : List Nat) : Except DecodeErr (List Nat) :=
  match unmarshalRaw ext with
  | none => .error .unmarshal
  | some (seq, rest) =>
    if rest ≠ [] then .error .trailingExtension
    else if seq.isCompound = true ∧ seq.tag = 16 ∧ seq.cls = 0 then
      decodeAIALoop seq.bytes
    else .error .badSeq

/-- Fuelled reference parse of the outer sequence's content octets into the
list of its AccessDescriptions.  `some ds` holds exactly when every child of
the sequence is a well-formed AccessDescription; it is used to state what a
well-formed AIA extension is. -/
def descsOfF : Nat → List Nat → Option (List (List Nat × RawValue))
  | _, [] => some []
  | 0, _ :: _ => none
  | fuel + 1, b :: bs =>
    match parseDescStep (b :: bs) with
    | .fail _ => none
    | .desc oid loc rest2 => (descsOfF fuel rest2).map (fun ds => (oid, loc) :: ds)

/-- Reference parse of a sequence body into its AccessDescriptions. -/
def descsOf (body : List Nat) : Option (List (List Nat × RawValue)) :=
  descsOfF body.length body

/-- Reference parse of a full AIA extension: a universal constructed
SEQUENCE with no trailing bytes whose children are all well-formed
AccessDescriptions.  `aiaDescs ext = some ds` formalises "`ext` is a
well-formed AIA extension with AccessDescriptions `ds`". -/
def aiaDescs (ext : List Nat) : Option (List (List Nat × RawValue)) :=
  match unmarshalRaw ext with
  | none => none
  | some (seq, rest) =>
    if rest ≠ [] then none
    else if seq.isCompound = true ∧ seq.tag = 16 ∧ seq.cls = 0 then
      descsOf seq.bytes
    else none

/-- Modelled from the spec (§4.1 steps 4-5): the intended scan over a list of
well-formed AccessDescriptions — first CA-Issuers match wins, tag 6 yields
the URL, any other tag is an unknown-type error, and exhaustion yields the
empty URL with no error.  Used to compare `decodeAIA` with the spec. -/
def loopSpec : List (List Nat × RawValue) → Except DecodeErr (List Nat)
  | [] => .ok []
  | (oid, loc) :: rest =>
    if oid = aiaIssuer then
      if loc.tag = 6 then .ok loc.bytes else .error .unknownType
    else loopSpec rest

/-- The responder-URL selection of `manualCheck` (src/main.go lines 105-111):
an explicit non-empty responder override wins, otherwise the first entry of
the end-entity certificate's `OCSPServer` list.  Go indexes `OCSPServer[0]`
unconditionally, so `none` models the runtime index-out-of-range panic on an
empty list, not a reported error. -/
def manualCheckURL (respURL : String) (ocspServer : List String) : Option String :=
  if respURL ≠ "" then some respURL else ocspServer.head?

/-- Which path `processURL` takes after obtaining the connection state
(src/main.go lines 225-233). -/
inductive URLCheckRun where
  /-- `stapledCheck`: the staple bytes are handed to `parseResponse`, no
  network request is made -/
  | stapledRun (staple : List Nat)
  /-- `manualCheck`: build an OCSP request and POST it to the responder -/
  | manualRun
deriving DecidableEq, Repr

/-- The stapled-vs-manual decision of `processURL` (src/main.go line 225):
`if staple == nil || *nostaple { manualCheck } else { stapledCheck }`. -/
def processURLRun (staple : Option (List Nat)) (nostaple : Bool) : URLCheckRun :=
  match staple with
  | none => .manualRun
  | some s => if nostaple then .manualRun else .stapledRun s

/-- Number of HTTP POSTs a path performs: `stapledCheck` only calls
`parseResponse` (src/main.go lines 204-209); `manualCheck` performs exactly
one `client.Do` POST (src/main.go lines 133-143). -/
def runPosts : URLCheckRun → Nat
  | .stapledRun _ => 0
  | .manualRun => 1

/-- The two top-level scenarios dispatched by `main`. -/
inductive Scenario where
  | urlCheck
  | fileCheck
deriving DecidableEq, Repr

/-- Go `strings.HasPrefix s "https"`. -/
def isHTTPSURL (s : String) : Bool := "https".data.isPrefixOf s.data

/-- The dispatch logic of `main` (src/main.go lines 296-319).  Inputs are the
two flag values plus whether each scenario's processing fails; the result is
the list of scenarios whose processing actually ran (in order) and whether
the process terminated through `log.Fatalf` (which calls `os.Exit` and ends
the process immediately). -/
def mainScenarios (destURL certPath : String) (urlFails fileFails : Bool) :
    List Scenario × Bool :=
  if destURL = "" ∧ certPath = "" then ([], true)
  else if destURL ≠ "" then
    if ¬ isHTTPSURL destURL then ([], true)
    else if urlFails then ([.urlCheck], true)
    else if certPath ≠ "" then ([.urlCheck, .fileCheck], fileFails)
    else ([.urlCheck], false)
  else ([.fileCheck], fileFails)

/-- The revocation-reason translation table of `parseResponse`
(src/main.go lines 175-199): a `switch` on the numeric reason with a
default branch rendering the unexpected value. -/
def reasonLabel (n : Int) : String :=
  if n = 0 then "Unspecified"
  else if n = 1 then "KeyCompromise"
  else if n = 2 then "CACompromise"
  else if n = 3 then "AffiliationChanged"
  else if n = 4 then "Superseded"
  else if n = 5 then "CessationOfOperation"
  else if n = 6 then "CertificateHold"
  else if n = 8 then "RemoveFromCRL"
  else if n = 9 then "PrivilegeWithdrawn"
  else if n = 10 then "AACompromise"
  else "unexpected value: " ++ toString n

/-- A successfully parsed OCSP response as `parseResponse` consumes it: the
`Status` and `RevocationReason` fields of `golang.org/x/crypto/ocsp`'s
`Response` (`Good = 0`, `Revoked = 1`, `Unknown = 2`). -/
structure OCSPResp where
  status : Nat
  revocationReason : Int
deriving DecidableEq, Repr

/-- The verdict `parseResponse` reports for a successfully parsed response. -/
structure Verdict where
  statusLabel : String
  reason : String
deriving DecidableEq, Repr

/-- The interpretation step of `parseResponse` after `ocsp.ParseResponse`
succeeds (src/main.go lines 167-200): three-way status and the translated
revocation reason.  The function is total: every numeric reason yields a
verdict and processing completes normally. -/
def interpretResponse (r : OCSPResp) : Verdict :=
  { statusLabel :=
      if r.status = 0 then "Good"
      else if r.status = 2 then "Unknown"
      else "Revoked"
  , reason := reasonLabel r.revocationReason }

/-- A TLS connection state as `processURL` consumes it: the verified chains
(certificates abstracted to identifiers) and the stapled response bytes. -/
structure ConnState where
  verifiedChains : List (List Nat)
  ocspResponse : Option (List Nat)
deriving DecidableEq, Repr

/-- `grabServerCert` (src/main.go lines 101-103): `VerifiedChains[0][0]`.
`none` models the runtime index panic. -/
def grabServerCert (cs : ConnState) : Option Nat :=
  match cs.verifiedChains with
  | [] => none
  | chain :: _ => chain.head?

/-- `grabIssuerCert` (src/main.go lines 97-99): `VerifiedChains[0][1]`.
`none` models the runtime index panic. -/
def grabIssuerCert (cs : ConnState) : Option Nat :=
  match cs.verifiedChains with
  | [] => none
  | chain :: _ => chain.get? 1

/-- Outcome of the precondition phase of `processURL`
(src/main.go lines 216-223). -/
inductive URLPreOutcome where
  /-- reported error `"no connection state"` -/
  | noConnState
  /-- runtime index-out-of-range panic inside `grabServerCert` or
  `grabIssuerCert`; no error value is ever reported -/
  | fault
  /-- both certificates obtained; the check proceeds -/
  | proceed (server issuer : Nat) (staple : Option (List Nat))
deriving DecidableEq, Repr

/-- The precondition phase of `processURL`: a `nil` connection state is a
reported error; otherwise the end-entity certificate is taken from index 0
and the issuer from index 1 of the first verified chain, with no bounds
check. -/
def processURLPre (connState : Option ConnState) : URLPreOutcome :=
  match connState with
  | none => .noConnState
  | some cs =>
    match grabServerCert cs, grabIssuerCert cs with
    | some s, some i => .proceed s i cs.ocspResponse
    | _, _ => .fault

/-- An X.509 extension record as `processFile` iterates them: OID and raw
content bytes. -/
structure Extension where
  oid : List Nat
  value : List Nat
deriving DecidableEq, Repr

/-- Errors of the AIA phase of `processFile` (src/main.go lines 252-269). -/
inductive FileErr where
  /-- a `decodeAIA` error, returned as-is -/
  | decode (e : DecodeErr)
  /-- `"No AIA url, and previous error was %s"` -/
  | noAIAUrl
deriving DecidableEq, Repr

/-- The extension scan of `processFile` (src/main.go lines 254-265): for each
extension matching the AIA OID, run `decodeAIA`; propagate its error;
remember the last non-empty URL. -/
def scanAIA : List Extension → Option (List Nat) → Except FileErr (Option (List Nat))
  | [], acc => .ok acc
  | e :: rest, acc =>
    if e.oid = authorityInfoAccess then
      match decodeAIA e.value with
      | .error de => .error (.decode de)
      | .ok url => scanAIA rest (if 0 < url.length then some url else acc)
    else scanAIA rest acc

/-- The AIA phase of `processFile`: the issuer URL that will be fetched, or
the error returned before any network operation (src/main.go lines 252-271;
the `client.Get` fetch and the subsequent `manualCheck` POST both come only
after this phase succeeds). -/
def processFileAIA (exts : List Extension) : Except FileErr (List Nat) :=
  match scanAIA exts none with
  | .error e => .error e
  | .ok none => .error .noAIAUrl
  | .ok (some url) => .ok url

/-- Number of network fetches `processFile` performs for a certificate with
the given extensions: zero when the AIA phase fails, one issuer-certificate
fetch otherwise. -/
def processFileFetches (exts : List Extension) : Nat :=
  match processFileAIA exts with
  | .error _ => 0
  | .ok _ => 1

/-- A well-formed AIA extension: one CA-Issuers AccessDescription whose
location is the context-specific tag-6 URI byte `u` (0x75). -/
def exIssuerURI : List Nat :=
  [48, 15, 48, 13, 6, 8, 43, 6, 1, 5, 5, 7, 48, 2, 134, 1, 117]

/-- A well-formed AIA extension: one CA-Issuers AccessDescription whose
location is a universal INTEGER (tag 2), not a URI. -/
def exIssuerInt : List Nat :=
  [48, 15, 48, 13, 6, 8, 43, 6, 1, 5, 5, 7, 48, 2, 2, 1, 0]

/-- A well-formed AIA extension with zero AccessDescriptions. -/
def exEmptySeq : List Nat := [48, 0]

/-- A well-formed AIA extension: one OCSP-method (1.3.6.1.5.5.7.48.1)
AccessDescription, no CA-Issuers entry. -/
def exOCSPOnly : List Nat :=
  [48, 15, 48, 13, 6, 8, 43, 6, 1, 5, 5, 7, 48, 1, 134, 1, 117]

/-- An AIA extension whose first child is a CA-Issuers AccessDescription
with a tag-6 URI and whose second child is a universal INTEGER — not a
constructed SEQUENCE. -/
def exLateBadChild : List Nat :=
  [48, 18, 48, 13, 6, 8, 43, 6, 1, 5, 5, 7, 48, 2, 134, 1, 117, 2, 1, 0]

/-- The content octets of `exLateBadChild`'s outer sequence. -/
def exLateBadChildBody : List Nat :=
  [48, 13, 6, 8, 43, 6, 1, 5, 5, 7, 48, 2, 134, 1, 117, 2, 1, 0]

theorem parseBase128Core_lt (bs : List Nat) : ∀ (s a v : Nat) (r : List Nat),
    parseBase128Core s a bs = some (v, r) → r.length < bs.length := by
  induction bs with
  | nil => intro s a v r h; simp [parseBase128Core] at h
  | cons b bs ih =>
    intro s a v r h
    simp only [parseBase128Core] at h
    split at h
    · exact absurd h (by simp)
    · split at h
      · exact absurd h (by simp)
      · split at h
        · split at h
          · exact absurd h (by simp)
          · simp only [Option.some.injEq, Prod.mk.injEq] at h
            obtain ⟨_, hr⟩ := h
            subst hr
            simp
        · have := ih _ _ _ _ h
          simp only [List.length_cons]
          omega

theorem parseLongLen_le : ∀ (n a : Nat) (bs : List Nat) (v : Nat) (r : List Nat),
    parseLongLen n a bs = some (v, r) → r.length ≤ bs.length := by
  intro n
  induction n with
  | zero =>
    intro a bs v r h
    simp only [parseLongLen] at h
    split at h
    · exact absurd h (by simp)
    · simp only [Option.some.injEq, Prod.mk.injEq] at h
      obtain ⟨_, hr⟩ := h
      subst hr; exact le_rfl
  | succ k ih =>
    intro a bs v r h
    cases bs with
    | nil => simp [parseLongLen] at h
    | cons b bs =>
      simp only [parseLongLen] at h
      split at h
      · exact absurd h (by simp)
      · split at h
        · exact absurd h (by simp)
        · have := ih _ _ _ _ h
          simp only [List.length_cons]
          omega

theorem parseTagAndLength_lt (input : List Nat) (t : TagLength) (r : List Nat)
    (h : parseTagAndLength input = some (t, r)) : r.length < input.length := by
  cases input with
  | nil => simp [parseTagAndLength] at h
  | cons b bs =>
    simp only [parseTagAndLength] at h
    have hbs : ∀ (tag : Nat) (r1 : List Nat),
        (if b % 32 = 31 then
          match parseBase128Core 0 0 bs with
          | none => none
          | some (t, r) => if t < 31 then none else some (t, r)
        else some (b % 32, bs)) = some (tag, r1) → r1.length ≤ bs.length := by
      intro tag r1 h1
      split at h1
      · split at h1
        · exact absurd h1 (by simp)
        · rename_i heq
          split at h1
          · exact absurd h1 (by simp)
          · simp only [Option.some.injEq, Prod.mk.injEq] at h1
            obtain ⟨_, hr⟩ := h1
            subst hr
            exact le_of_lt (parseBase128Core_lt bs _ _ _ _ heq)
      · simp only [Option.some.injEq, Prod.mk.injEq] at h1
        obtain ⟨_, hr⟩ := h1
        subst hr; exact le_rfl
    split at h
    · exact absurd h (by simp)
    · rename_i tagRes tag r1 heq1
      have hr1 : r1.length ≤ bs.length := hbs tag r1 heq1
      cases r1 with
      | nil => simp at h
      | cons l r2 =>
        simp only at h
        split at h
        · simp only [Option.some.injEq, Prod.mk.injEq] at h
          obtain ⟨_, hr⟩ := h
          subst hr
          simp only [List.length_cons] at hr1 ⊢
          omega
        · split at h
          · exact absurd h (by simp)
          · split at h
            · exact absurd h (by simp)
            · rename_i len r3 heq2
              simp only [Option.some.injEq, Prod.mk.injEq] at h
              obtain ⟨_, hr⟩ := h
              subst hr
              have := parseLongLen_le _ _ _ _ _ heq2
              simp only [List.length_cons] at hr1 ⊢
              omega

theorem unmarshalRaw_lt (input : List Nat) (rv : RawValue) (rest : List Nat)
    (h : unmarshalRaw input = some (rv, rest)) : rest.length < input.length := by
  simp only [unmarshalRaw] at h
  split at h
  · exact absurd h (by simp)
  · rename_i t r heq
    split at h
    · simp only [Option.some.injEq, Prod.mk.injEq] at h
      obtain ⟨_, hr⟩ := h
      subst hr
      have h1 := parseTagAndLength_lt input t r heq
      have h2 : (r.drop t.len).length ≤ r.length := by
        rw [List.length_drop]; omega
      omega
    · exact absurd h (by simp)

theorem parseDescStep_desc_lt (body : List Nat) (oid : List Nat) (loc : RawValue)
    (r2 : List Nat) (h : parseDescStep body = .desc oid loc r2) :
    r2.length < body.length := by
  simp only [parseDescStep] at h
  split at h
  · exact absurd h (by simp)
  · rename_i inside rest2 heq
    split at h
    · split at h
      · exact absurd h (by simp)
      · split at h
        · exact absurd h (by simp)
        · split at h
          · simp only [StepOut.desc.injEq] at h
            obtain ⟨_, _, hr⟩ := h
            subst hr
            exact unmarshalRaw_lt body inside rest2 heq
          · exact absurd h (by simp)
    · exact absurd h (by simp)

theorem decodeAIALoopF_congr : ∀ (f1 : Nat) (body : List Nat) (f2 : Nat),
    body.length ≤ f1 → body.length ≤ f2 →
    decodeAIALoopF f1 body = decodeAIALoopF f2 body := by
  intro f1
  induction f1 with
  | zero =>
    intro body f2 h1 _
    have : body = [] := List.eq_nil_of_length_eq_zero (Nat.le_zero.mp h1)
    subst this
    cases f2 <;> rfl
  | succ k ih =>
    intro body f2 h1 h2
    cases body with
    | nil => cases f2 <;> rfl
    | cons b bs =>
      cases f2 with
      | zero => simp at h2
      | succ m =>
        simp only [decodeAIALoopF]
        cases hs : parseDescStep (b :: bs) with
        | fail e => rfl
        | desc oid loc r2 =>
          have hlt := parseDescStep_desc_lt _ _ _ _ hs
          simp only [List.length_cons] at h1 h2 hlt
          by_cases hoid : oid = aiaIssuer
          · simp [hoid]
          · simp only [if_neg hoid]
            exact ih r2 m (by omega) (by omega)

theorem descsOfF_congr : ∀ (f1 : Nat) (body : List Nat) (f2 : Nat),
    body.length ≤ f1 → body.length ≤ f2 →
    descsOfF f1 body = descsOfF f2 body := by
  intro f1
  induction f1 with
  | zero =>
    intro body f2 h1 _
    have : body = [] := List.eq_nil_of_length_eq_zero (Nat.le_zero.mp h1)
    subst this
    cases f2 <;> rfl
  | succ k ih =>
    intro body f2 h1 h2
    cases body with
    | nil => cases f2 <;> rfl
    | cons b bs =>
      cases f2 with
      | zero => simp at h2
      | succ m =>
        simp only [descsOfF]
        cases hs : parseDescStep (b :: bs) with
        | fail e => rfl
        | desc oid loc r2 =>
          have hlt := parseDescStep_desc_lt _ _ _ _ hs
          simp only [List.length_cons] at h1 h2 hlt
          dsimp only
          rw [ih r2 m (by omega) (by omega)]

theorem decodeAIALoop_cons (b : Nat) (bs : List Nat) :
    decodeAIALoop (b :: bs) =
      match parseDescStep (b :: bs) with
      | .fail e => .error e
      | .desc oid loc r2 =>
        if oid = aiaIssuer then
          if loc.tag = 6 then .ok loc.bytes else .error .unknownType
        else decodeAIALoop r2 := by
  show decodeAIALoopF (bs.length + 1) (b :: bs) = _
  simp only [decodeAIALoopF]
  cases hs : parseDescStep (b :: bs) with
  | fail e => rfl
  | desc oid loc r2 =>
    have hlt := parseDescStep_desc_lt _ _ _ _ hs
    simp only [List.length_cons] at hlt
    by_cases hoid : oid = aiaIssuer
    · simp [hoid]
    · simp only [if_neg hoid]
      exact decodeAIALoopF_congr bs.length r2 r2.length (by omega) le_rfl

theorem descsOf_cons (b : Nat) (bs : List Nat) :
    descsOf (b :: bs) =
      match parseDescStep (b :: bs) with
      | .fail _ => none
      | .desc oid loc r2 => (descsOf r2).map (fun ds => (oid, loc) :: ds) := by
  show descsOfF (bs.length + 1) (b :: bs) = _
  simp only [descsOfF]
  cases hs : parseDescStep (b :: bs) with
  | fail e => rfl
  | desc oid loc r2 =>
    have hlt := parseDescStep_desc_lt _ _ _ _ hs
    simp only [List.length_cons] at hlt
    dsimp only
    rw [descsOfF_congr bs.length r2 r2.length (by omega) le_rfl]
    rfl

theorem decodeAIALoop_eq_loopSpec : ∀ (n : Nat) (body : List Nat)
    (ds : List (List Nat × RawValue)), body.length ≤ n →
    descsOf body = some ds → decodeAIALoop body = loopSpec ds := by
  intro n
  induction n with
  | zero =>
    intro body ds h1 h2
    have : body = [] := List.eq_nil_of_length_eq_zero (Nat.le_zero.mp h1)
    subst this
    have : ds = [] := by
      have : (some [] : Option (List (List Nat × RawValue))) = some ds := h2
      exact (Option.some.inj this).symm
    subst this
    rfl
  | succ k ih =>
    intro body ds h1 h2
    cases body with
    | nil =>
      have : ds = [] := by
        have : (some [] : Option (List (List Nat × RawValue))) = some ds := h2
        exact (Option.some.inj this).symm
      subst this
      rfl
    | cons b bs =>
      rw [descsOf_cons] at h2
      rw [decodeAIALoop_cons]
      cases hs : parseDescStep (b :: bs) with
      | fail e => rw [hs] at h2; exact absurd h2 (by simp)
      | desc oid loc r2 =>
        rw [hs] at h2
        simp only [Option.map_eq_some'] at h2
        obtain ⟨ds', hds', hcons⟩ := h2
        subst hcons
        have hlt := parseDescStep_desc_lt _ _ _ _ hs
        simp only [List.length_cons] at h1 hlt
        simp only [loopSpec]
        by_cases hoid : oid = aiaIssuer
        · simp [hoid]
        · simp only [if_neg hoid]
          exact ih r2 ds' (by omega) hds'

theorem aiaDescs_decodeAIA (ext : List Nat) (ds : List (List Nat × RawValue))
    (h : aiaDescs ext = some ds) : decodeAIA ext = loopSpec ds := by
  simp only [aiaDescs] at h
  simp only [decodeAIA]
  split at h
  · exact absurd h (by simp)
  · rename_i seq rest heq
    split at h
    · exact absurd h (by simp)
    · rename_i hrest
      split at h
      · rename_i hshape
        rw [if_neg hrest, if_pos hshape]
        exact decodeAIALoop_eq_loopSpec seq.bytes.length seq.bytes ds le_rfl h
      · exact absurd h (by simp)

theorem loopSpec_no_issuer : ∀ (ds : List (List Nat × RawValue)),
    (∀ p ∈ ds, p.1 ≠ aiaIssuer) → loopSpec ds = .ok [] := by
  intro ds
  induction ds with
  | nil => intro _; rfl
  | cons p rest ih =>
    intro h
    obtain ⟨oid, loc⟩ := p
    have hne : oid ≠ aiaIssuer := h (oid, loc) (List.mem_cons_self _ _)
    simp only [loopSpec, if_neg hne]
    exact ih (fun q hq => h q (List.mem_cons_of_mem _ hq))

theorem loopSpec_first_match : ∀ (pre post : List (List Nat × RawValue))
    (oid : List Nat) (loc : RawValue),
    (∀ p ∈ pre, p.1 ≠ aiaIssuer) → oid = aiaIssuer →
    loopSpec (pre ++ (oid, loc) :: post) =
      if loc.tag = 6 then .ok loc.bytes else .error .unknownType := by
  intro pre
  induction pre with
  | nil =>
    intro post oid loc _ hoid
    simp only [List.nil_append, loopSpec, if_pos hoid]
  | cons p rest ih =>
    intro post oid loc h hoid
    obtain ⟨o, l⟩ := p
    have hne : o ≠ aiaIssuer := h (o, l) (List.mem_cons_self _ _)
    simp only [List.cons_append, loopSpec, if_neg hne]
    exact ih post oid loc (fun q hq => h q (List.mem_cons_of_mem _ hq)) hoid

theorem stringLengthAppend (a b : String) : (a ++ b).length = a.length + b.length := by
  rcases a with ⟨da⟩
  rcases b with ⟨db⟩
  show (String.mk (da ++ db)).length = _
  simp [String.mk_length]

theorem reasonLabel_unspecified_iff (n : Int) :
    reasonLabel n = "Unspecified" ↔ n = 0 := by
  constructor
  · intro h
    by_contra hne
    unfold reasonLabel at h
    rw [if_neg hne] at h
    by_cases h1 : n = 1
    · rw [if_pos h1] at h; exact absurd h (by decide)
    rw [if_neg h1] at h
    by_cases h2 : n = 2
    · rw [if_pos h2] at h; exact absurd h (by decide)
    rw [if_neg h2] at h
    by_cases h3 : n = 3
    · rw [if_pos h3] at h; exact absurd h (by decide)
    rw [if_neg h3] at h
    by_cases h4 : n = 4
    · rw [if_pos h4] at h; exact absurd h (by decide)
    rw [if_neg h4] at h
    by_cases h5 : n = 5
    · rw [if_pos h5] at h; exact absurd h (by decide)
    rw [if_neg h5] at h
    by_cases h6 : n = 6
    · rw [if_pos h6] at h; exact absurd h (by decide)
    rw [if_neg h6] at h
    by_cases h8 : n = 8
    · rw [if_pos h8] at h; exact absurd h (by decide)
    rw [if_neg h8] at h
    by_cases h9 : n = 9
    · rw [if_pos h9] at h; exact absurd h (by decide)
    rw [if_neg h9] at h
    by_cases h10 : n = 10
    · rw [if_pos h10] at h; exact absurd h (by decide)
    rw [if_neg h10] at h
    have hlen := congrArg String.length h
    rw [stringLengthAppend] at hlen
    have e1 : ("unexpected value: " : String).length = 18 := rfl
    have e2 : ("Unspecified" : String).length = 11 := rfl
    rw [e1, e2] at hlen
    omega
  · intro h
    subst h
    rfl

theorem scanAIA_all_empty : ∀ (exts : List Extension) (acc : Option (List Nat)),
    (∀ e ∈ exts, e.oid = authorityInfoAccess → decodeAIA e.value = .ok []) →
    scanAIA exts acc = .ok acc := by
  intro exts
  induction exts with
  | nil => intro acc _; rfl
  | cons e rest ih =>
    intro acc h
    simp only [scanAIA]
    by_cases he : e.oid = authorityInfoAccess
    · rw [if_pos he, h e (List.mem_cons_self _ _) he]
      dsimp only
      simp only [List.length_nil, Nat.lt_irrefl, if_false]
      exact ih acc (fun q hq hq2 => h q (List.mem_cons_of_mem _ hq) hq2)
    · rw [if_neg he]
      exact ih acc (fun q hq hq2 => h q (List.mem_cons_of_mem _ hq) hq2)

/-- Claim C4: for every well-formed AIA extension, at the first
AccessDescription whose access method is CA-Issuers (all earlier
descriptions having other methods), a tag-6 access location is returned as
the URL with no error — and the result is the same for every choice of later
AccessDescriptions (first match wins) — while any other location tag yields
the unknown-type error rather than a silent continue. -/
theorem decodeAIA_first_issuer_match (ext : List Nat)
    (pre post : List (List Nat × RawValue)) (oid : List Nat) (loc : RawValue)
    (hwf : aiaDescs ext = some (pre ++ (oid, loc) :: post))
    (hpre : ∀ p ∈ pre, p.1 ≠ aiaIssuer) (hoid : oid = aiaIssuer) :
    (loc.tag = 6 → decodeAIA ext = .ok loc.bytes) ∧
    (loc.tag ≠ 6 → decodeAIA ext = .error .unknownType) := by
  have h := aiaDescs_decodeAIA ext _ hwf
  rw [loopSpec_first_match pre post oid loc hpre hoid] at h
  constructor
  · intro h6; rw [h, if_pos h6]
  · intro h6; rw [h, if_neg h6]

theorem decodeAIA_first_issuer_match_witness :
    decodeAIA exIssuerURI = .ok [117] ∧
    decodeAIA exIssuerInt = .error .unknownType := by
  constructor
  · exact (decodeAIA_first_issuer_match exIssuerURI [] [] aiaIssuer
      ⟨2, 6, false, [117]⟩ (by decide) (by simp) rfl).1 rfl
  · exact (decodeAIA_first_issuer_match exIssuerInt [] [] aiaIssuer
      ⟨0, 2, false, [0]⟩ (by decide) (by simp) rfl).2 (by decide)

/-- Claim C5: for every well-formed AIA extension containing no CA-Issuers
AccessDescription — including the sequence with zero AccessDescriptions —
`decodeAIA` returns the empty URL and no error. -/
theorem decodeAIA_no_issuer_entry (ext : List Nat)
    (ds : List (List Nat × RawValue)) (hwf : aiaDescs ext = some ds)
    (hno : ∀ p ∈ ds, p.1 ≠ aiaIssuer) :
    decodeAIA ext = .ok [] := by
  rw [aiaDescs_decodeAIA ext ds hwf]
  exact loopSpec_no_issuer ds hno

theorem decodeAIA_no_issuer_entry_witness :
    decodeAIA exEmptySeq = .ok [] ∧ decodeAIA exOCSPOnly = .ok [] := by
  constructor
  · exact decodeAIA_no_issuer_entry exEmptySeq [] (by decide) (by simp)
  · exact decodeAIA_no_issuer_entry exOCSPOnly
      [([1, 3, 6, 1, 5, 5, 7, 48, 1], ⟨2, 6, false, [117]⟩)] (by decide) (by decide)

/-- Claim C6 counterexample: `exLateBadChild` is an input whose outer element
is a universal constructed SEQUENCE with no trailing data, and whose second
child (`[2, 1, 0]`, a universal primitive INTEGER) is not a constructed
SEQUENCE — yet `decodeAIA` returns the URL from the first child with no
error, because the scan stops at the first CA-Issuers match and never
examines the malformed second child.  This refutes the claim that a
structural error is returned for every input any of whose children is not a
constructed SEQUENCE. -/
theorem decodeAIA_late_bad_child :
    decodeAIA exLateBadChild = .ok [117] ∧
    unmarshalRaw exLateBadChild = some (⟨0, 16, true, exLateBadChildBody⟩, []) ∧
    parseDescStep exLateBadChildBody =
      .desc aiaIssuer ⟨2, 6, false, [117]⟩ [2, 1, 0] ∧
    unmarshalRaw [2, 1, 0] = some (⟨0, 2, false, [0]⟩, []) ∧
    (⟨0, 2, false, [0]⟩ : RawValue).isCompound = false := by
  decide

/-- Claim C6 (amended): `decodeAIA` returns a structural error for every
input with trailing bytes after the outer element (checked first), and for
every input whose outer element parses but is not a universal constructed
SEQUENCE; during the scan of the sequence body, a child that is not a
constructed SEQUENCE and an AccessDescription with trailing bytes after its
two elements each produce the corresponding error when reached, and a
well-formed AccessDescription with a non-CA-Issuers method passes control to
the rest of the body — so the error guarantees apply to children occurring
before the first CA-Issuers AccessDescription, while children after an early
CA-Issuers return are never examined. -/
theorem decodeAIA_structural_error_cases :
    (∀ ext rv rest, unmarshalRaw ext = some (rv, rest) → rest ≠ [] →
      decodeAIA ext = .error .trailingExtension) ∧
    (∀ ext rv, unmarshalRaw ext = some (rv, []) →
      ¬(rv.isCompound = true ∧ rv.tag = 16 ∧ rv.cls = 0) →
      decodeAIA ext = .error .badSeq) ∧
    (∀ ext seq, unmarshalRaw ext = some (seq, []) →
      seq.isCompound = true ∧ seq.tag = 16 ∧ seq.cls = 0 →
      decodeAIA ext = decodeAIALoop seq.bytes) ∧
    (∀ body inside rest2, unmarshalRaw body = some (inside, rest2) →
      ¬(inside.isCompound = true ∧ inside.tag = 16 ∧ inside.cls = 0) →
      decodeAIALoop body = .error .badSeq) ∧
    (∀ body inside rest2 oid body2 loc rest3,
      unmarshalRaw body = some (inside, rest2) →
      inside.isCompound = true ∧ inside.tag = 16 ∧ inside.cls = 0 →
      unmarshalOID inside.bytes = some (oid, body2) →
      unmarshalRaw body2 = some (loc, rest3) → rest3 ≠ [] →
      decodeAIALoop body = .error .trailingAIA) ∧
    (∀ body inside rest2 oid body2 loc,
      unmarshalRaw body = some (inside, rest2) →
      inside.isCompound = true ∧ inside.tag = 16 ∧ inside.cls = 0 →
      unmarshalOID inside.bytes = some (oid, body2) →
      unmarshalRaw body2 = some (loc, []) → oid ≠ aiaIssuer →
      decodeAIALoop body = decodeAIALoop rest2) := by
  have hnil : ∀ rv rest, ¬ unmarshalRaw [] = some (rv, rest) := by
    intro rv rest h
    simp [unmarshalRaw, parseTagAndLength] at h
  have hstep : ∀ (body : List Nat) (inside : RawValue) (rest2 : List Nat),
      unmarshalRaw body = some (inside, rest2) →
      decodeAIALoop body =
        match parseDescStep body with
        | .fail e => .error e
        | .desc oid loc r2 =>
          if oid = aiaIssuer then
            if loc.tag = 6 then .ok loc.bytes else .error .unknownType
          else decodeAIALoop r2 := by
    intro body inside rest2 h
    cases body with
    | nil => exact absurd h (hnil _ _)
    | cons b bs => exact decodeAIALoop_cons b bs
  refine ⟨?_, ?_, ?_, ?_, ?_, ?_⟩
  · intro ext rv rest h hne
    unfold decodeAIA
    rw [h]
    simp [hne]
  · intro ext rv h hsh
    unfold decodeAIA
    rw [h]
    simp [hsh]
  · intro ext seq h hsh
    unfold decodeAIA
    rw [h]
    simp [hsh]
  · intro body inside rest2 h hsh
    rw [hstep body inside rest2 h]
    unfold parseDescStep
    rw [h]
    simp [hsh]
  · intro body inside rest2 oid body2 loc rest3 h hsh hoid hloc hne
    rw [hstep body inside rest2 h]
    unfold parseDescStep
    rw [h]
    simp [hsh, hoid, hloc, hne]
  · intro body inside rest2 oid body2 loc h hsh hoid hloc hne
    rw [hstep body inside rest2 h]
    unfold parseDescStep
    rw [h]
    simp [hsh, hoid, hloc, hne]

theorem decodeAIA_structural_error_cases_witness :
    decodeAIA [48, 0, 0] = .error .trailingExtension ∧
    decodeAIA [2, 1, 0] = .error .badSeq ∧
    decodeAIALoop [2, 1, 0] = .error .badSeq ∧
    decodeAIALoop [48, 14, 6, 8, 43, 6, 1, 5, 5, 7, 48, 2, 134, 1, 117, 0] =
      .error .trailingAIA := by
  refine ⟨?_, ?_, ?_, ?_⟩
  · exact decodeAIA_structural_error_cases.1 [48, 0, 0] ⟨0, 16, true, []⟩ [0]
      (by decide) (by decide)
  · exact decodeAIA_structural_error_cases.2.1 [2, 1, 0] ⟨0, 2, false, [0]⟩
      (by decide) (by decide)
  · exact decodeAIA_structural_error_cases.2.2.2.1 [2, 1, 0] ⟨0, 2, false, [0]⟩ []
      (by decide) (by decide)
  · exact decodeAIA_structural_error_cases.2.2.2.2.1
      [48, 14, 6, 8, 43, 6, 1, 5, 5, 7, 48, 2, 134, 1, 117, 0]
      ⟨0, 16, true, [6, 8, 43, 6, 1, 5, 5, 7, 48, 2, 134, 1, 117, 0]⟩ []
      aiaIssuer [134, 1, 117, 0] ⟨2, 6, false, [117]⟩ [0]
      (by decide) (by decide) (by decide) (by decide) (by decide)

/-- Claim C1: in `manualCheck` the responder URL is chosen by priority — a
non-empty override wins, otherwise `OCSPServer[0]`.  With no override and an
empty OCSP-server list the code does not report a configuration error: it
indexes an empty list (`none` here models Go's index-out-of-range panic),
confirming the spec-mandated bug. -/
theorem manualCheck_url_selection_eval :
    manualCheckURL "" [] = none ∧
    manualCheckURL "http://r.example" ["http://a.example"] = some "http://r.example" ∧
    manualCheckURL "" ["http://a.example", "http://b.example"] = some "http://a.example" := by
  decide

/-- Claim C2: `processURL` takes the stapled path exactly when a staple is
present and the staple-bypass flag is unset (handing the staple bytes to the
interpreter, performing zero POSTs), and the manual path (one POST)
otherwise. -/
theorem processURL_path_selection (s : List Nat) (ns : Bool) :
    (ns = false → processURLRun (some s) ns = .stapledRun s ∧
      runPosts (processURLRun (some s) ns) = 0) ∧
    (ns = true → processURLRun (some s) ns = .manualRun ∧
      runPosts (processURLRun (some s) ns) = 1) ∧
    processURLRun none ns = .manualRun ∧
    runPosts (processURLRun none ns) = 1 := by
  cases ns <;> simp [processURLRun, runPosts]

theorem processURL_path_selection_witness :
    (processURLRun (some [1]) false = .stapledRun [1] ∧
      runPosts (processURLRun (some [1]) false) = 0) ∧
    (processURLRun (some [1]) true = .manualRun ∧
      runPosts (processURLRun (some [1]) true) = 1) :=
  ⟨(processURL_path_selection [1] false).1 rfl,
   (processURL_path_selection [1] true).2.1 rfl⟩

/-- Claim C3 counterexample: with both a URL and a certificate path supplied
and the URL scenario failing, `main` terminates through `log.Fatalf` and the
file scenario never runs — refuting the claim that a failure of the
live-connection scenario does not suppress the standalone-file scenario. -/
theorem main_url_failure_suppresses_file :
    mainScenarios "https://example.com" "cert.pem" true false =
      ([Scenario.urlCheck], true) ∧
    Scenario.fileCheck ∉ (mainScenarios "https://example.com" "cert.pem" true false).1 := by
  decide

/-- Claim C3 (amended): with both inputs supplied, the URL check runs first;
if it succeeds the file check then runs regardless of its own outcome (so a
file-scenario failure cannot suppress the URL check), but a URL-scenario
failure terminates the process and suppresses the file scenario. -/
theorem main_scenarios_sequencing (d c : String) (ff : Bool)
    (hd : d ≠ "") (hhttps : isHTTPSURL d = true) (hc : c ≠ "") :
    (mainScenarios d c false ff).1 = [Scenario.urlCheck, Scenario.fileCheck] ∧
    mainScenarios d c true ff = ([Scenario.urlCheck], true) := by
  constructor
  · simp [mainScenarios, hd, hc, hhttps]
  · simp [mainScenarios, hd, hc, hhttps]

theorem main_scenarios_sequencing_witness :
    (mainScenarios "https://example.com" "cert.pem" false true).1 =
      [Scenario.urlCheck, Scenario.fileCheck] ∧
    mainScenarios "https://example.com" "cert.pem" true true =
      ([Scenario.urlCheck], true) :=
  ⟨(main_scenarios_sequencing "https://example.com" "cert.pem" true
      (by decide) (by decide) (by decide)).1,
   (main_scenarios_sequencing "https://example.com" "cert.pem" true
      (by decide) (by decide) (by decide)).2⟩

/-- Claim C7: `parseResponse` translates the numeric revocation reason by
the exact table Unspecified=0 … AACompromise=10 (7 absent), and every value
outside the table — 7 included — is rendered as the explicit
"unexpected value: N" diagnostic; the interpretation is total, so processing
completes without a crash and without coercion to "Unspecified". -/
theorem parseResponse_reason_table :
    (∀ r : OCSPResp, (interpretResponse r).reason = reasonLabel r.revocationReason) ∧
    reasonLabel 0 = "Unspecified" ∧
    reasonLabel 1 = "KeyCompromise" ∧
    reasonLabel 2 = "CACompromise" ∧
    reasonLabel 3 = "AffiliationChanged" ∧
    reasonLabel 4 = "Superseded" ∧
    reasonLabel 5 = "CessationOfOperation" ∧
    reasonLabel 6 = "CertificateHold" ∧
    reasonLabel 8 = "RemoveFromCRL" ∧
    reasonLabel 9 = "PrivilegeWithdrawn" ∧
    reasonLabel 10 = "AACompromise" ∧
    (∀ n : Int, n ∉ ([0, 1, 2, 3, 4, 5, 6, 8, 9, 10] : List Int) →
      reasonLabel n = "unexpected value: " ++ toString n) := by
  refine ⟨fun r => rfl, by decide, by decide, by decide, by decide, by decide,
    by decide, by decide, by decide, by decide, by decide, ?_⟩
  intro n h
  simp only [List.mem_cons, List.not_mem_nil, or_false, not_or] at h
  obtain ⟨h0, h1, h2, h3, h4, h5, h6, h8, h9, h10⟩ := h
  unfold reasonLabel
  rw [if_neg h0, if_neg h1, if_neg h2, if_neg h3, if_neg h4, if_neg h5,
    if_neg h6, if_neg h8, if_neg h9, if_neg h10]

theorem parseResponse_reason_table_witness :
    (7 : Int) ∉ ([0, 1, 2, 3, 4, 5, 6, 8, 9, 10] : List Int) ∧
    reasonLabel 7 = "unexpected value: 7" := by
  refine ⟨by decide, ?_⟩
  have h := parseResponse_reason_table.2.2.2.2.2.2.2.2.2.2.2 7 (by decide)
  rw [h]
  rfl

/-- Claim C8: the verdict's revocation reason carries "Unspecified"
semantics exactly when the parsed response's numeric revocation-reason field
is 0; the interpreter is a pure function of that supplied field and never
fabricates any other reason. -/
theorem interpretResponse_unspecified_iff_zero (r : OCSPResp) :
    (interpretResponse r).reason = "Unspecified" ↔ r.revocationReason = 0 :=
  reasonLabel_unspecified_iff r.revocationReason

/-- Claim C9: `processURL` takes the end-entity certificate from index 0 and
the issuer from index 1 of the first verified chain, and reports a
"no connection state" error for a missing connection state — but a verified
chain with fewer than two certificates (or no chain at all) produces a
runtime index-out-of-range fault, not a reported precondition error,
confirming the divergence from the claim. -/
theorem processURL_chain_eval :
    processURLPre (some ⟨[[7]], none⟩) = .fault ∧
    processURLPre none = .noConnState ∧
    processURLPre (some ⟨[[5, 9], [3]], some [1, 2]⟩) = .proceed 5 9 (some [1, 2]) ∧
    processURLPre (some ⟨[], none⟩) = .fault := by
  decide

/-- Claim C10: in the standalone-file scenario, whenever no extension
matches the AIA OID, or every matching extension's AIA decoding reports no
issuer URL, `processFile` fails with the no-AIA-url error and performs no
network fetch of any kind. -/
theorem processFile_no_aia_error (exts : List Extension)
    (h : ∀ e ∈ exts, e.oid = authorityInfoAccess → decodeAIA e.value = .ok []) :
    processFileAIA exts = .error .noAIAUrl ∧ processFileFetches exts = 0 := by
  have hs := scanAIA_all_empty exts none h
  constructor
  · simp only [processFileAIA, hs]
  · simp only [processFileFetches, processFileAIA, hs]

theorem processFile_no_aia_error_witness :
    (processFileAIA [⟨[2, 5], [48, 0]⟩] = .error .noAIAUrl ∧
      processFileFetches [⟨[2, 5], [48, 0]⟩] = 0) ∧
    (processFileAIA [⟨authorityInfoAccess, exEmptySeq⟩] = .error .noAIAUrl ∧
      processFileFetches [⟨authorityInfoAccess, exEmptySeq⟩] = 0) :=
  ⟨processFile_no_aia_error _ (by decide), processFile_no_aia_error _ (by decide)⟩
